import Mathlib

/-!
Shallow embedding of the psychonaut-station/api repository core:
the BYOND Topic protocol client (package byond), the generic timed
response cache (CachedResponse / ShouldRefreshResponse / Init), and the
v1 HTTP handlers (StatusCb, PlayerLeaderboardCb, BanCheckCb) together
with the small stdlib fragments they use (strconv.Atoi,
strconv.ParseFloat, url.ParseQuery, url.Values.Get/Has).

Machine integers are embedded as Nat/Int with explicit wrap-around where
the code converts (int32(...)); byte strings are List Nat with each
element a byte value; time.Time / time.Duration are Int nanosecond
counts (time.Time{} is the zero sentinel 0); float32 results of
strconv.ParseFloat are abstracted to exact rationals (no claim below
depends on float rounding — only on the parsed-vs-default-zero split).
Network and database effects are passed in as explicit oracles and the
handlers return the envelopes they write and the database calls they
make, so that frame effects are visible in the result.
-/

set_option maxRecDepth 8000

namespace PsyApi

/-! ## Go stdlib fragments used by the handlers -/

/-- Go `int32(v)` applied to a 64-bit `int` value: two's-complement
truncation to 32 bits. -/
def toInt32 (v : Int) : Int :=
  (v + 2147483648).emod 4294967296 - 2147483648

/-- Value of a non-empty all-digit character list, `none` otherwise.
This is the digit loop shared by the `strconv` parse functions. -/
def digitsVal? (cs : List Char) : Option Nat :=
  if cs = [] then none
  else
    cs.foldl
      (fun acc c =>
        match acc with
        | none => none
        | some n => if c.isDigit then some (n * 10 + (c.toNat - 48)) else none)
      (some 0)

/-- Model of Go `strconv.Atoi` as used by `url_to_int`/`to_int`: optional
single sign, then decimal digits; a syntax error yields 0 (the callers
discard the error), an out-of-range value is clamped to the int64 range
exactly as `strconv.ParseInt` does on a range error. -/
def goAtoi (s : String) : Int :=
  let cs := s.toList
  let signed : Bool × List Char :=
    match cs with
    | '-' :: rest => (true, rest)
    | '+' :: rest => (false, rest)
    | _ => (false, cs)
  match digitsVal? signed.2 with
  | none => 0
  | some n =>
      if signed.1 then
        if (n : Int) > 2 ^ 63 then -(2 ^ 63) else -(n : Int)
      else
        if (n : Int) > 2 ^ 63 - 1 then 2 ^ 63 - 1 else (n : Int)

/-- Unsigned value of all-digit text, empty list giving 0 (helper for the
decimal-fraction parse below). -/
def digitsValD (cs : List Char) : Nat :=
  cs.foldl (fun acc c => acc * 10 + (c.toNat - 48)) 0

/-- Model of Go `strconv.ParseFloat(s, 32)` as used by `url_to_f32`/`to_f32`,
restricted to plain decimal numerals (optional sign, digits, optional
fraction); parse errors yield 0 since the callers discard the error, and
float32 rounding is abstracted to the exact rational value.  The claims
below only distinguish a parsed value from the default 0. -/
def goParseF32 (s : String) : Rat :=
  let cs := s.toList
  let signed : Bool × List Char :=
    match cs with
    | '-' :: rest => (true, rest)
    | '+' :: rest => (false, rest)
    | _ => (false, cs)
  let intPart := signed.2.takeWhile Char.isDigit
  let rest := signed.2.dropWhile Char.isDigit
  let mag? : Option Rat :=
    match rest with
    | [] => if intPart = [] then none else some ((digitsValD intPart : Int) : Rat)
    | '.' :: frac =>
        if frac.all Char.isDigit ∧ ¬(intPart = [] ∧ frac = []) then
          some ((digitsValD intPart : Rat) + (digitsValD frac : Rat) / (10 ^ frac.length))
        else none
    | _ => none
  match mag? with
  | none => 0
  | some q => if signed.1 then -q else q

/-- Hexadecimal digit value (helper for percent-unescaping). -/
def hexVal? (c : Char) : Option Nat :=
  if '0' ≤ c ∧ c ≤ '9' then some (c.toNat - 48)
  else if 'a' ≤ c ∧ c ≤ 'f' then some (c.toNat - 87)
  else if 'A' ≤ c ∧ c ≤ 'F' then some (c.toNat - 70)
  else none

/-- Model of Go `url.QueryUnescape` on a character list: `%XX` becomes the
byte `XX`, `+` becomes a space, a malformed escape fails. -/
def unescapeChars : List Char → Option (List Char)
  | [] => some []
  | '%' :: h1 :: h2 :: rest =>
      match hexVal? h1, hexVal? h2, unescapeChars rest with
      | some a, some b, some r => some (Char.ofNat (16 * a + b) :: r)
      | _, _, _ => none
  | '%' :: _ => none
  | '+' :: rest => (unescapeChars rest).map (fun r => ' ' :: r)
  | c :: rest => (unescapeChars rest).map (fun r => c :: r)

/-- Split a character list on a separator character (the `strings.Cut`
loop of Go `url.ParseQuery` over `&`). -/
def splitOnChar (sep : Char) : List Char → List (List Char)
  | [] => [[]]
  | c :: rest =>
      if c = sep then [] :: splitOnChar sep rest
      else
        match splitOnChar sep rest with
        | [] => [[c]]
        | piece :: pieces => (c :: piece) :: pieces

/-- Model of Go `url.ParseQuery`: pairs are separated by `&`, a pair
containing `;` is skipped, an empty pair is skipped, the key is the text
before the first `=` and the value the text after it, both
query-unescaped; a pair whose unescaping fails is skipped.  The callers
discard the error value, so only the surviving pairs matter.  Insertion
order is kept, which is what `url.Values.Get` reads. -/
def parseQuery (s : String) : List (String × String) :=
  (splitOnChar '&' s.toList).foldl
    (fun acc piece =>
      if piece = [] then acc
      else if piece.any (fun c => c = ';') then acc
      else
        let k := piece.takeWhile (fun c => ¬c = '=')
        let v := (piece.dropWhile (fun c => ¬c = '=')).tail
        match unescapeChars k, unescapeChars v with
        | some k2, some v2 => acc ++ [(k2.asString, v2.asString)]
        | _, _ => acc)
    []

/-- Go `url.Values.Get`: first value recorded for the key, `""` when the
key is absent. -/
def valuesGet (u : List (String × String)) (k : String) : String :=
  match u.find? (fun p => p.1 == k) with
  | some p => p.2
  | none => ""

/-- Go `url.Values.Has`: whether the key is present. -/
def queryHas (u : List (String × String)) (k : String) : Bool :=
  u.any (fun p => p.1 == k)

/-! ## responses.go helpers `url_to_int` / `url_to_f32` -/

/-- Source `url_to_int`: `val, _ := strconv.Atoi(u.Get(v)); return int32(val)`. -/
def url_to_int (u : List (String × String)) (v : String) : Int :=
  toInt32 (goAtoi (valuesGet u v))

/-- Source `url_to_f32`: `val, _ := strconv.ParseFloat(u.Get(v), 32)`. -/
def url_to_f32 (u : List (String × String)) (v : String) : Rat :=
  goParseF32 (valuesGet u v)

/-! ## Package byond: the Topic protocol client -/

/-- Source constant `TopicTypeNull = 0x0`. -/
def TopicTypeNull : Nat := 0x0

/-- Source constant `TopicTypeNumber = 0x2A`. -/
def TopicTypeNumber : Nat := 0x2A

/-- Source constant `TopicTypeString = 0x6`. -/
def TopicTypeString : Nat := 0x6

/-- Source constant `BYOND_PACKET_HEADER_SIZE = 4`. -/
def BYOND_PACKET_HEADER_SIZE : Nat := 4

/-- UTF-8 encoding of a Unicode code point, as Go produces for the
conversion `string(i)` of an integer: surrogate or out-of-range values
become the replacement character U+FFFD. -/
def utf8Encode (c : Nat) : List Nat :=
  if c < 0x80 then [c]
  else if c < 0x800 then [0xC0 + c / 64, 0x80 + c % 64]
  else if 0xD800 ≤ c ∧ c < 0xE000 then [0xEF, 0xBF, 0xBD]
  else if c < 0x10000 then
    [0xE0 + c / 4096, 0x80 + c / 64 % 64, 0x80 + c % 64]
  else if c ≤ 0x10FFFF then
    [0xF0 + c / 262144, 0x80 + c / 4096 % 64, 0x80 + c / 64 % 64, 0x80 + c % 64]
  else [0xEF, 0xBF, 0xBD]

/-- Bytes of the Go expression `string(n)` for a non-negative int `n`:
the UTF-8 encoding of code point `n`.  This is what
`packetData.WriteString("\x00" + string(len(data)+6))` appends after the
0x00 byte. -/
def goIntString (n : Nat) : List Nat := utf8Encode n

/-- Request frame built by `Topic` (the five `WriteString` calls on
`packetData`, in order), for a payload given as its byte list. -/
def topicFrame (data : List Nat) : List Nat :=
  [0x00, 0x83] ++ (0x00 :: goIntString (data.length + 6)) ++
    [0x00, 0x00, 0x00, 0x00, 0x00] ++ data ++ [0x00]

/-- The frame layout stated by the spec:
`[0x00 0x83][0x00][LEN=payload_len+6][0x00 x5][payload][0x00]` with LEN a
single byte.  Written from the spec's words, to be compared with
`topicFrame`. -/
def specFrame (data : List Nat) : List Nat :=
  0x00 :: 0x83 :: 0x00 :: (data.length + 6) ::
    0x00 :: 0x00 :: 0x00 :: 0x00 :: 0x00 :: (data ++ [0x00])

/-- Reference parser for the spec's request-frame layout: checks the
2-byte magic/type prefix, the 0x00 before LEN, the five reserved zero
bytes, the trailing NUL, and that LEN equals payload length + 6;
returns the payload bytes. -/
def decodeFrame : List Nat → Option (List Nat)
  | b0 :: b1 :: b2 :: len :: z1 :: z2 :: z3 :: z4 :: z5 :: rest =>
      if b0 = 0 ∧ b1 = 0x83 ∧ b2 = 0 ∧ z1 = 0 ∧ z2 = 0 ∧ z3 = 0 ∧ z4 = 0 ∧
          z5 = 0 ∧ rest.getLast? = some 0 ∧ len = rest.length + 5 then
        some rest.dropLast
      else none
  | _ => none

/-- One Go `conn.Read(buf)` call with `n = len(buf)` against a connection
whose pending deliveries are a list of byte chunks: the call returns the
bytes of the first pending chunk, at most `n` of them, leaving any
surplus of that chunk pending (TCP keeps undelivered bytes buffered); on
a closed/empty connection it returns no bytes.  The result is the bytes
read and the remaining pending deliveries. -/
def readOnce (n : Nat) : List (List Nat) → List Nat × List (List Nat)
  | [] => ([], [])
  | c :: rest => if c.length ≤ n then (c, rest) else (c.take n, c.drop n :: rest)

/-- Contents of a freshly `make`-allocated buffer of length `n` after a
single `Read` returned the bytes `got`: the prefix is overwritten, the
remainder keeps its zero initialisation. -/
def fillBuf (n : Nat) (got : List Nat) : List Nat :=
  got ++ List.replicate (n - got.length) 0

/-- `binary.BigEndian.Uint16` of two bytes. -/
def beUint16 (b0 b1 : Nat) : Nat := b0 * 256 + b1

/-- The classification tail of `Topic` (lines after the body read):
`responseDataType` is `TopicTypeNull` unless the body buffer is longer
than 2 bytes, in which case it is the first byte; a null classification
returns no payload, otherwise the payload is the buffer minus its first
byte.  The input is the `responseData` buffer, whose length is the
declared `DataSize`. -/
def topicClassify (responseData : List Nat) : Nat × Option (List Nat) :=
  let responseDataType :=
    if responseData.length > 2 then responseData.getD 0 TopicTypeNull
    else TopicTypeNull
  if responseDataType = TopicTypeNull then (responseDataType, none)
  else (responseDataType, some responseData.tail)

/-- The receive path of `Topic` after a successful dial: one `Read` into
the 4-byte header buffer, big-endian parse of the size field, one `Read`
into a `DataSize`-byte body buffer, then classification.  `chunks` is
the connection's delivery schedule. -/
def topicReceive (chunks : List (List Nat)) : Nat × Option (List Nat) :=
  let r1 := readOnce BYOND_PACKET_HEADER_SIZE chunks
  let responseHeaderData := fillBuf BYOND_PACKET_HEADER_SIZE r1.1
  let dataSize := beUint16 (responseHeaderData.getD 2 0) (responseHeaderData.getD 3 0)
  let r2 := readOnce dataSize r1.2
  let responseData := fillBuf dataSize r2.1
  topicClassify responseData

/-- Full result of one `Topic` call: the error, the data type and the
payload, plus the bytes written to the connection.  `dialOk` is whether
`net.DialTimeout` succeeded; on dial failure `Topic` returns the dial
error with a null type and no payload before any I/O. -/
def Topic (dialOk : Bool) (chunks : List (List Nat)) (data : List Nat) :
    (Option Unit × Nat × Option (List Nat)) × List Nat :=
  let packetData := topicFrame data
  if dialOk then
    let r := topicReceive chunks
    ((none, r.1, r.2), packetData)
  else
    ((some (), TopicTypeNull, none), [])

/-! ## responses.go: the generic timed response cache -/

/-- Source `CachedResponse[T]`: cooldown and last access are
`time.Duration` / `time.Time`, both embedded as nanosecond counts. -/
structure CachedResponse (T : Type) where
  Cooldown : Int
  LastAccess : Int
  Var : T
deriving DecidableEq, Repr

/-- Source `ShouldRefreshResponse`:
`time.Since(response.LastAccess) >= response.Cooldown`, with
`time.Since(t) = now - t`. -/
def ShouldRefreshResponse {T : Type} (response : CachedResponse T) (now : Int) : Bool :=
  decide (now - response.LastAccess ≥ response.Cooldown)

/-- Source `(w *CachedResponse[T]).Init(cooldown)`: stores the cooldown
and resets the last access to the zero `time.Time{}` sentinel. -/
def CachedResponse.Init {T : Type} (w : CachedResponse T) (cooldown : Int) :
    CachedResponse T :=
  { w with Cooldown := cooldown, LastAccess := 0 }

/-- Nanoseconds of Go `time.Second`. -/
def goSecond : Int := 1000000000

/-- Nanoseconds of Go `time.Hour`. -/
def goHour : Int := 3600000000000

/-! ## v1.go: data model and status aggregator -/

/-- Source `config.ServerInstance`. -/
structure ServerInstance where
  Name : String
  Address : String
  ConnectionAddress : String
  ErrorMessage : String
deriving DecidableEq, Repr

/-- Source `ServerStatus` (direct representation of the status topic);
int32 fields are embedded as Int, float32 fields as Rat. -/
structure ServerStatus where
  Name : String
  ServerStatus : Int
  ErrorMessage : String
  RoundID : Int
  Hub : Bool
  Players : Int
  Admins : Int
  Map : String
  SecurityLevel : String
  RoundDuration : Int
  GameState : Int
  TimeDilation : Rat
  TimeDilationAvg : Rat
  TimeDilationSlow : Rat
  TimeDilationFast : Rat
  ShuttleMode : String
  ShuttleTime : Int
  ConnectionInfo : String
deriving DecidableEq, Repr

/-- What `byond.Topic` hands back to the aggregator: whether `err != nil`,
the returned data type, and the payload bytes (`nil` embedded as `[]`,
which is also what `string(data)` sees). -/
structure TopicOut where
  err : Bool
  dataType : Nat
  data : List Nat
deriving DecidableEq, Repr

/-- Go `string(bs)` for a byte slice, restricted to ASCII bytes (every
payload in the claims is ASCII; non-ASCII bytes would go through UTF-8
decoding with replacement characters, which no claim exercises). -/
def goStringOfBytes (bs : List Nat) : String :=
  (bs.map Char.ofNat).asString

/-- The base record StatusCb builds before the Topic branch: zero value
`ServerStatus{}` with `Name`, `ServerStatus = 0`, `ErrorMessage` and
`ConnectionInfo` filled from the server descriptor. -/
def baseStatus (server : ServerInstance) : ServerStatus :=
  { Name := server.Name
    ServerStatus := 0
    ErrorMessage := server.ErrorMessage
    RoundID := 0
    Hub := false
    Players := 0
    Admins := 0
    Map := ""
    SecurityLevel := ""
    RoundDuration := 0
    GameState := 0
    TimeDilation := 0
    TimeDilationAvg := 0
    TimeDilationSlow := 0
    TimeDilationFast := 0
    ShuttleMode := ""
    ShuttleTime := 0
    ConnectionInfo := server.ConnectionAddress }

/-- The online branch of StatusCb: `url.ParseQuery(string(data))` then
field-by-field population via `url_to_int` / `url_to_f32` / `u.Get`. -/
def decodeStatus (status : ServerStatus) (data : String) : ServerStatus :=
  let u := parseQuery data
  { status with
    ServerStatus := 1
    RoundID := url_to_int u "round_id"
    Hub := url_to_int u "hub" = 1
    Players := url_to_int u "players"
    Admins := url_to_int u "admins"
    Map := valuesGet u "map_name"
    SecurityLevel := valuesGet u "security_level"
    RoundDuration := url_to_int u "round_duration"
    GameState := url_to_int u "gamestate"
    TimeDilation := url_to_f32 u "time_dilation_current"
    TimeDilationAvg := url_to_f32 u "time_dilation_avg"
    TimeDilationSlow := url_to_f32 u "time_dilation_avg_slow"
    TimeDilationFast := url_to_f32 u "time_dilation_avg_fast"
    ShuttleMode := valuesGet u "shuttle_mode"
    ShuttleTime := url_to_int u "shuttle_time" }

/-- One iteration of the StatusCb refresh loop: the record appended for
one configured server, with `topic` the oracle for
`byond.Topic(server.Address, "?status")`. -/
def statusRecord (topic : String → TopicOut) (server : ServerInstance) : ServerStatus :=
  let t := topic server.Address
  let status := baseStatus server
  if t.err = true ∨ t.dataType ≠ TopicTypeString then status
  else decodeStatus status (goStringOfBytes t.data)

/-- The refresh loop of StatusCb as a fold over the configured servers,
accumulating `serverResponseW.Var` by appending one record per server. -/
def statusLoopFinal (topic : String → TopicOut) (acc : List ServerStatus) :
    List ServerInstance → List ServerStatus
  | [] => acc
  | server :: rest => statusLoopFinal topic (acc ++ [statusRecord topic server]) rest

/-- The successive values `serverResponseW.Var` takes during the refresh
loop: one entry per executed `append`. -/
def statusLoopStates (topic : String → TopicOut) (acc : List ServerStatus) :
    List ServerInstance → List (List ServerStatus)
  | [] => []
  | server :: rest =>
      let acc2 := acc ++ [statusRecord topic server]
      acc2 :: statusLoopStates topic acc2 rest

/-- The list a completed refresh leaves in the cache. -/
def statusRefreshVar (topic : String → TopicOut) (servers : List ServerInstance) :
    List ServerStatus :=
  statusLoopFinal topic [] servers

/-- Every observable state of `serverResponseW` during one execution of
the StatusCb refresh branch (entered when the cache is stale), in
program order: after `LastAccess = time.Now()`, after `Var = nil`, and
after each `append` in the loop.  A concurrent reader that observes the
cache mid-refresh reads exactly one of these states. -/
def statusRefreshStates (cache : CachedResponse (List ServerStatus)) (now : Int)
    (servers : List ServerInstance) (topic : String → TopicOut) :
    List (CachedResponse (List ServerStatus)) :=
  let s0 := { cache with LastAccess := now }
  let s1 := { s0 with Var := [] }
  s0 :: s1 :: (statusLoopStates topic [] servers).map (fun acc => { s1 with Var := acc })

/-- Source `StatusCb` end-to-end: refresh when stale, then write the
cached list with a success envelope.  Returns the cache state after the
call and the list written to the response. -/
def StatusCb (servers : List ServerInstance) (topic : String → TopicOut) (now : Int)
    (cache : CachedResponse (List ServerStatus)) :
    CachedResponse (List ServerStatus) × List ServerStatus :=
  if ShouldRefreshResponse cache now then
    let cache2 := { cache with LastAccess := now, Var := statusRefreshVar topic servers }
    (cache2, cache2.Var)
  else (cache, cache.Var)

/-! ## v1.go: leaderboard and ban handlers -/

/-- The slice of an incoming HTTP request the handlers read: the parsed
URL query (`r.URL.Query()`, a multimap in insertion order) and the
`token` header. -/
structure Request where
  query : List (String × String)
  token : String
deriving DecidableEq, Repr

/-- Source `Confidential` as a predicate: the handler proceeds iff the
`token` header equals the configured secret (on mismatch the caller
writes the bad-auth envelope and returns). -/
def Confidential (secret : String) (r : Request) : Bool :=
  decide (r.token = secret)

/-- Source `db.RoleTime` (pointer fields embedded as Option). -/
structure RoleTime where
  ByondKey : Option String
  Minutes : Option Int
deriving DecidableEq, Repr

/-- Envelopes `PlayerLeaderboardCb` can write: the bad-auth envelope from
`Confidential`, or a success envelope with a leaderboard body. -/
inductive LbWrite where
  | badAuth
  | success (body : List RoleTime)
deriving DecidableEq, Repr

/-- Observable outcome of one `PlayerLeaderboardCb` call: envelopes
written, the leaderboard cache afterwards, and the `db.GetTopMinutes`
jobs queried, in order. -/
structure LbOut where
  writes : List LbWrite
  cache : CachedResponse (List RoleTime)
  dbCalls : List String
deriving DecidableEq, Repr

/-- Source `PlayerLeaderboardCb`: with a non-empty `job` parameter it
requires the shared secret and answers straight from
`db.GetTopMinutes(job)`; otherwise it serves `playTimeLeaderboardW`,
refreshing it from `db.GetTopMinutes("Living")` when stale.  `dbTop` is
the database oracle. -/
def PlayerLeaderboardCb (secret : String) (dbTop : String → List RoleTime) (now : Int)
    (cache : CachedResponse (List RoleTime)) (r : Request) : LbOut :=
  let job := valuesGet r.query "job"
  if 0 < job.length then
    if Confidential secret r = false then
      { writes := [LbWrite.badAuth], cache := cache, dbCalls := [] }
    else
      let data := dbTop job
      let playTimes := data.map
        (fun v => ({ ByondKey := v.ByondKey, Minutes := v.Minutes } : RoleTime))
      { writes := [LbWrite.success playTimes], cache := cache, dbCalls := [job] }
  else
    if ShouldRefreshResponse cache now then
      let data := dbTop "Living"
      let cache2 := { cache with
        LastAccess := now
        Var := data.map
          (fun v => ({ ByondKey := v.ByondKey, Minutes := v.Minutes } : RoleTime)) }
      { writes := [LbWrite.success cache2.Var], cache := cache2, dbCalls := ["Living"] }
    else
      { writes := [LbWrite.success cache.Var], cache := cache, dbCalls := [] }

/-- The leaderboard cache as `InitV1` leaves it:
`playTimeLeaderboardW.Init(1 * time.Hour)`. -/
def initV1LeaderboardCache (w : CachedResponse (List RoleTime)) :
    CachedResponse (List RoleTime) :=
  CachedResponse.Init w (1 * goHour)

/-- The server-status cache as `InitV1` leaves it:
`serverResponseW.Init(5 * time.Second)`. -/
def initV1ServerCache (w : CachedResponse (List ServerStatus)) :
    CachedResponse (List ServerStatus) :=
  CachedResponse.Init w (5 * goSecond)

/-- Source `db.Ban` (pointer fields embedded as Option). -/
structure Ban where
  ID : Option Int
  Date : Option String
  RoundID : Option Int
  Role : Option String
  ExpirationDate : Option String
  Reason : Option String
  BannedKey : Option String
  AdminKey : Option String
  Edits : Option String
  UnbanDate : Option String
  UnbanKey : Option String
deriving DecidableEq, Repr

/-- Envelopes `BanCheckCb` can write: bad auth from `Confidential`, the
fail envelope (reason "fail", body 0), or a success envelope carrying
one ban or a ban list. -/
inductive BanWrite where
  | badAuth
  | failed
  | banSuccess (b : Ban)
  | bansSuccess (l : List Ban)
deriving DecidableEq, Repr

/-- Database lookups `BanCheckCb` can issue. -/
inductive BanQuery where
  | byId (id : Int)
  | byCkey (ckey : String)
deriving DecidableEq, Repr

/-- Source `BanCheckCb`: after the shared-secret gate, an `id` parameter
selects `db.GetBanByID(url_to_int(q, "id"))`, else a `ckey` parameter
selects `db.GetBan(ckey)`, else the handler falls through writing
nothing.  Returns the envelopes written and the lookups issued. -/
def BanCheckCb (secret : String) (getBanByID : Int → Ban × Bool)
    (getBan : String → List Ban × Bool) (r : Request) :
    List BanWrite × List BanQuery :=
  if Confidential secret r = false then ([BanWrite.badAuth], [])
  else
    let q := r.query
    if queryHas q "id" then
      let banID := url_to_int q "id"
      let res := getBanByID banID
      (if res.2 then [BanWrite.banSuccess res.1] else [BanWrite.failed],
        [BanQuery.byId banID])
    else if queryHas q "ckey" then
      let ckey := valuesGet q "ckey"
      let res := getBan ckey
      (if res.2 then [BanWrite.bansSuccess res.1] else [BanWrite.failed],
        [BanQuery.byCkey ckey])
    else ([], [])

/-! ## Concrete fixtures used by witnesses and counterexamples -/

/-- One configured server descriptor. -/
def srvA : ServerInstance :=
  { Name := "A", Address := "127.0.0.1:9999", ConnectionAddress := "play:1337",
    ErrorMessage := "unreachable" }

/-- Topic oracle for an unreachable server: the call errors. -/
def topicDown : String → TopicOut :=
  fun _ => { err := true, dataType := TopicTypeNull, data := [] }

/-- Topic oracle answering every query with the string-tagged payload of
the spec's well-formed response scenario. -/
def topicBox : String → TopicOut :=
  fun _ =>
    { err := false, dataType := TopicTypeString,
      data := "round_id=5&players=10&map_name=Box".toList.map Char.toNat }

/-- A leaderboard cache with the 1-hour cooldown and no prior refresh. -/
def lbCacheFixture : CachedResponse (List RoleTime) :=
  { Cooldown := 3600000000000, LastAccess := 0, Var := [] }

/-- A leaderboard request filtered by job but carrying a wrong token. -/
def reqJobWrong : Request :=
  { query := [("job", "Doctor")], token := "wrong" }

/-- A ban record with every nullable column absent. -/
def emptyBan : Ban :=
  { ID := none, Date := none, RoundID := none, Role := none, ExpirationDate := none,
    Reason := none, BannedKey := none, AdminKey := none, Edits := none,
    UnbanDate := none, UnbanKey := none }

/-- Status cache fixture holding one previously complete record. -/
def statusCacheFixture : CachedResponse (List ServerStatus) :=
  { Cooldown := 5000000000, LastAccess := 0,
    Var := [{ baseStatus srvA with ServerStatus := 1, RoundID := 41 }] }

/-! ## Helper lemmas about the refresh loop -/

theorem statusLoopFinal_eq (topic : String → TopicOut) (l : List ServerInstance) :
    ∀ acc, statusLoopFinal topic acc l = acc ++ l.map (statusRecord topic) := by
  induction l with
  | nil => intro acc; simp [statusLoopFinal]
  | cons s rest ih =>
      intro acc
      simp [statusLoopFinal, ih, List.append_assoc]

theorem statusLoopStates_mem (topic : String → TopicOut) (l : List ServerInstance) :
    ∀ acc a, a ∈ statusLoopStates topic acc l →
      ∃ t, a ++ t = statusLoopFinal topic acc l := by
  induction l with
  | nil => intro acc a h; simp [statusLoopStates] at h
  | cons s rest ih =>
      intro acc a h
      simp only [statusLoopStates, List.mem_cons] at h
      rcases h with h | h
      · subst h
        refine ⟨rest.map (statusRecord topic), ?_⟩
        simp [statusLoopFinal, statusLoopFinal_eq]
      · have h2 := ih (acc ++ [statusRecord topic s]) a h
        simpa [statusLoopFinal] using h2

theorem getLastD_cons_eq {α : Type} (a d : α) (l : List α) :
    (a :: l).getLastD d = l.getLastD a := by
  cases l <;> simp [List.getLastD]

theorem getLast?_cons_eq_getLastD {α : Type} (x : α) (l : List α) :
    (x :: l).getLast? = some (l.getLastD x) := by
  induction l generalizing x with
  | nil => rfl
  | cons y l ih => rw [List.getLast?_cons_cons, ih y, getLastD_cons_eq]

theorem getLastD_map {α β : Type} (f : α → β) (l : List α) :
    ∀ d, (l.map f).getLastD (f d) = f (l.getLastD d) := by
  induction l with
  | nil => intro d; rfl
  | cons a l ih => intro d; rw [List.map_cons, getLastD_cons_eq, getLastD_cons_eq, ih a]

theorem statusLoopStates_getLastD (topic : String → TopicOut) (l : List ServerInstance) :
    ∀ acc, (statusLoopStates topic acc l).getLastD acc = statusLoopFinal topic acc l := by
  induction l with
  | nil => intro acc; rfl
  | cons s rest ih =>
      intro acc
      rw [statusLoopStates, statusLoopFinal, getLastD_cons_eq, ih]

theorem statusRefreshStates_getLast (cache : CachedResponse (List ServerStatus)) (now : Int)
    (servers : List ServerInstance) (topic : String → TopicOut) :
    (statusRefreshStates cache now servers topic).getLast? =
      some { cache with LastAccess := now, Var := statusRefreshVar topic servers } := by
  simp only [statusRefreshStates]
  rw [getLast?_cons_eq_getLastD, getLastD_cons_eq]
  refine congrArg some ?_
  have h := getLastD_map
    (fun acc => ({ cache with LastAccess := now, Var := acc } : CachedResponse (List ServerStatus)))
    (statusLoopStates topic [] servers) []
  exact h.trans (by rw [statusLoopStates_getLastD, statusRefreshVar])

theorem length_pos_of_ne_empty (s : String) (h : s ≠ "") : 0 < s.length := by
  cases s with
  | mk data =>
      cases data with
      | nil => exact absurd rfl h
      | cons c cs => simp [String.length]

/-! ## Claim theorems -/

/-- C2 (code_bug): Topic does not loop its reads — a single response
delivered whole yields the string tag and payload, while the same
response with its 4-byte header split across two deliveries parses a
zero size from the half-filled header buffer and degenerates to a null
result, so the two deliveries are not reassembled identically. -/
theorem c2_partial_read_truncation :
    topicReceive [[0, 6, 0, 4, 6, 65, 66, 67]] = (TopicTypeString, some [65, 66, 67]) ∧
    topicReceive [[0, 6], [0, 4, 6, 65, 66, 67]] = (TopicTypeNull, none) ∧
    topicReceive [[0, 6, 0, 4, 6, 65, 66, 67]] ≠
      topicReceive [[0, 6], [0, 4, 6, 65, 66, 67]] := by
  decide

/-- C3 fixture: an ASCII payload of 122 bytes, for which len+6 = 128 no
longer fits Go's single-code-point string conversion in one byte. -/
def c3payload : List Nat := List.replicate 122 97

/-- C3 (counterexample): for a 122-byte payload the length field is the
two-byte UTF-8 encoding 0xC2 0x80 of code point 128, so the frame sent
is not the single-length-byte layout the claim states. -/
theorem c3_length_byte_counterexample :
    topicFrame c3payload ≠ specFrame c3payload ∧
    topicFrame c3payload =
      [0x00, 0x83, 0x00, 0xC2, 0x80] ++ ([0, 0, 0, 0, 0] ++ (c3payload ++ [0])) := by
  decide

/-- C3 (amended): for every payload with len(p) + 6 ≤ 127 the frame sent
is exactly the claimed byte layout with a single length byte, and the
reference parser for that layout recovers the payload exactly. -/
theorem c3_frame_roundtrip (data : List Nat) (h : data.length + 6 ≤ 127) :
    topicFrame data = specFrame data ∧ decodeFrame (topicFrame data) = some data := by
  have hlt : data.length + 6 < 128 := by omega
  have hframe : topicFrame data = specFrame data := by
    simp [topicFrame, specFrame, goIntString, utf8Encode, hlt]
  refine ⟨hframe, ?_⟩
  rw [hframe]
  simp [specFrame, decodeFrame, List.getLast?_concat, List.dropLast_concat]

/-- C3 witness: the frame for the payload "?status" (the command the
aggregator sends) round-trips through the reference parser. -/
theorem c3_frame_roundtrip_witness :
    topicFrame [63, 115, 116, 97, 116, 117, 115] =
      specFrame [63, 115, 116, 97, 116, 117, 115] ∧
    decodeFrame (topicFrame [63, 115, 116, 97, 116, 117, 115]) =
      some [63, 115, 116, 97, 116, 117, 115] :=
  c3_frame_roundtrip [63, 115, 116, 97, 116, 117, 115] (by decide)

/-- C4 (confirmed): ShouldRefreshResponse is true iff now minus the last
access is at least the cooldown; Init resets the last access to the zero
sentinel (so any instant at least one cooldown past the epoch reports
stale before the first refresh); an entry whose last access was just set
to the current instant is not stale for positive cooldown, and becomes
stale again exactly when at least the cooldown has elapsed. -/
theorem c4_staleness_characterization {T : Type} (c : CachedResponse T) (cd now t t2 : Int) :
    (ShouldRefreshResponse c now = true ↔ now - c.LastAccess ≥ c.Cooldown) ∧
    ((CachedResponse.Init c cd).LastAccess = 0 ∧ (CachedResponse.Init c cd).Cooldown = cd) ∧
    (cd ≤ now → ShouldRefreshResponse (CachedResponse.Init c cd) now = true) ∧
    (0 < cd → ShouldRefreshResponse { c with Cooldown := cd, LastAccess := t } t = false) ∧
    (ShouldRefreshResponse { c with Cooldown := cd, LastAccess := t } t2 = true ↔ t2 - t ≥ cd) := by
  refine ⟨by simp [ShouldRefreshResponse], ⟨rfl, rfl⟩, ?_, ?_, by simp [ShouldRefreshResponse]⟩
  · intro h
    simp only [ShouldRefreshResponse, CachedResponse.Init, decide_eq_true_eq]
    omega
  · intro h
    simp only [ShouldRefreshResponse, decide_eq_false_iff_not]
    omega

/-- C4 witness: with cooldown 5 and epoch sentinel, time 12 is stale;
after a refresh at 12 the entry is fresh at 12 and stale again at 17. -/
theorem c4_staleness_witness :
    ShouldRefreshResponse
      (CachedResponse.Init ({ Cooldown := 0, LastAccess := 99, Var := 0 } : CachedResponse Nat) 5)
      12 = true ∧
    ShouldRefreshResponse ({ Cooldown := 5, LastAccess := 12, Var := 0 } : CachedResponse Nat)
      12 = false ∧
    ShouldRefreshResponse ({ Cooldown := 5, LastAccess := 12, Var := 0 } : CachedResponse Nat)
      17 = true := by
  have h := c4_staleness_characterization
    ({ Cooldown := 0, LastAccess := 99, Var := 0 } : CachedResponse Nat) 5 12 12 17
  exact ⟨h.2.2.1 (by decide), h.2.2.2.1 (by decide), h.2.2.2.2.mpr (by decide)⟩

/-- C6 (counterexample): a 4-byte body whose first byte is the null tag
0x00 is answered with a nil payload, not with the remaining bytes, so
the clause "for longer bodies ... the remaining bytes are the payload"
fails as stated. -/
theorem c6_null_tag_counterexample :
    topicClassify [0, 1, 2, 3] = (TopicTypeNull, none) ∧
    topicClassify [0, 1, 2, 3] ≠ ((0 : Nat), some [1, 2, 3]) := by
  decide

/-- C6 (amended): Topic returns a non-nil error only when the dial
fails; a body of declared length at most 2 is classified null with nil
error and nil payload regardless of content; for longer bodies the first
byte is the type tag, the remaining bytes are the payload whenever that
tag is not the null tag, and a null first byte again yields a nil
payload. -/
theorem c6_classification (chunks : List (List Nat)) (payload body : List Nat) :
    ((Topic true chunks payload).1).1 = none ∧
    ((Topic false chunks payload).1).1 = some () ∧
    (body.length ≤ 2 → topicClassify body = (TopicTypeNull, none)) ∧
    (2 < body.length →
        (topicClassify body).1 = body.headD 0 ∧
        (body.headD 0 ≠ TopicTypeNull → (topicClassify body).2 = some body.tail) ∧
        (body.headD 0 = TopicTypeNull → topicClassify body = (TopicTypeNull, none))) := by
  refine ⟨rfl, rfl, ?_, ?_⟩
  · intro h
    have h2 : ¬body.length > 2 := by omega
    simp [topicClassify, h2]
  · intro h
    cases body with
    | nil => simp at h
    | cons b bs =>
        have hlen : 2 < bs.length + 1 := by simpa using h
        by_cases hb : b = TopicTypeNull
        · subst hb
          simp [topicClassify, hlen, TopicTypeNull]
        · refine ⟨by simp [topicClassify, hlen, hb], fun _ => ?_, fun hc => ?_⟩
          · simp [topicClassify, hlen, hb]
          · exact absurd (by simpa using hc) hb

/-- C6 witness: a dial success carries no error, a 2-byte body is null,
and the 4-byte string-tagged body 0x06 "abc" yields tag 6 and payload
"abc". -/
theorem c6_classification_witness :
    ((Topic true [[0, 6, 0, 1, 6]] [63]).1).1 = none ∧
    topicClassify [1, 2] = (TopicTypeNull, none) ∧
    (topicClassify [6, 97, 98, 99]).1 = 6 ∧
    (topicClassify [6, 97, 98, 99]).2 = some [97, 98, 99] := by
  have h := c6_classification [[0, 6, 0, 1, 6]] [63] [1, 2]
  have h2 := c6_classification [[0, 6, 0, 1, 6]] [63] [6, 97, 98, 99]
  refine ⟨h.1, h.2.2.1 (by decide), ?_, (h2.2.2.2 (by decide)).2.1 (by decide)⟩
  have h3 := (h2.2.2.2 (by decide)).1
  simpa using h3

/-- C10 (confirmed): an authorized ban lookup with neither an id nor a
ckey parameter writes no envelope and issues no database lookup. -/
theorem c10_bancheck_silent_fallthrough (secret : String) (getBanByID : Int → Ban × Bool)
    (getBan : String → List Ban × Bool) (r : Request)
    (htok : r.token = secret) (hid : queryHas r.query "id" = false)
    (hck : queryHas r.query "ckey" = false) :
    BanCheckCb secret getBanByID getBan r = ([], []) := by
  simp [BanCheckCb, Confidential, htok, hid, hck]

/-- C1 (counterexample): with a stale cache holding one complete record
and one unreachable configured server, the refresh's observable states
include one whose value is empty — a mid-refresh reader is not served
the previous complete value. -/
theorem c1_mid_refresh_counterexample :
    ShouldRefreshResponse statusCacheFixture 10000000000 = true ∧
    ¬(∀ s ∈ statusRefreshStates statusCacheFixture 10000000000 [srvA] topicDown,
        s.Var = statusCacheFixture.Var) := by
  decide

/-- C1 (amended): the refresh sets the last-access timestamp to now as
its first mutation, before the recompute; but it then clears the cached
value to empty and rebuilds it in place, so a reader observing the cache
mid-refresh is served an empty or partially built prefix of the new
list (the old value is visible only in the instant before the clear),
and the final state holds the complete new list, which is what StatusCb
leaves in the cache when it refreshes. -/
theorem c1_refresh_observable_states (cache : CachedResponse (List ServerStatus)) (now : Int)
    (servers : List ServerInstance) (topic : String → TopicOut) :
    (∀ s ∈ statusRefreshStates cache now servers topic, s.LastAccess = now) ∧
    (statusRefreshStates cache now servers topic).head? =
      some { cache with LastAccess := now } ∧
    (statusRefreshStates cache now servers topic)[1]? =
      some { cache with LastAccess := now, Var := [] } ∧
    (∀ s ∈ (statusRefreshStates cache now servers topic).tail,
        ∃ t, s.Var ++ t = statusRefreshVar topic servers) ∧
    (statusRefreshStates cache now servers topic).getLast? =
      some { cache with LastAccess := now, Var := statusRefreshVar topic servers } ∧
    (ShouldRefreshResponse cache now = true →
        (StatusCb servers topic now cache).1 =
          { cache with LastAccess := now, Var := statusRefreshVar topic servers }) := by
  refine ⟨?_, rfl, by simp [statusRefreshStates], ?_,
    statusRefreshStates_getLast cache now servers topic, ?_⟩
  · intro s hs
    simp only [statusRefreshStates, List.mem_cons, List.mem_map] at hs
    rcases hs with rfl | rfl | ⟨acc, _, rfl⟩ <;> rfl
  · intro s hs
    simp only [statusRefreshStates, List.tail_cons, List.mem_cons, List.mem_map] at hs
    rcases hs with rfl | ⟨acc, hacc, rfl⟩
    · exact ⟨statusRefreshVar topic servers, rfl⟩
    · exact statusLoopStates_mem topic servers [] acc hacc
  · intro h
    simp [StatusCb, h]

/-- C1 witness: on the stale fixture the refresh's last observable state
holds the complete new list and equals the cache StatusCb leaves. -/
theorem c1_refresh_observable_states_witness :
    (statusRefreshStates statusCacheFixture 10000000000 [srvA] topicDown).getLast? =
      some { statusCacheFixture with LastAccess := 10000000000, Var := statusRefreshVar topicDown [srvA] } ∧
    (StatusCb [srvA] topicDown 10000000000 statusCacheFixture).1 =
      { statusCacheFixture with LastAccess := 10000000000, Var := statusRefreshVar topicDown [srvA] } := by
  have h := c1_refresh_observable_states statusCacheFixture 10000000000 [srvA] topicDown
  exact ⟨h.2.2.2.2.1, h.2.2.2.2.2 (by decide)⟩

/-- C5 (confirmed): a status refresh produces exactly the per-server
records in configuration order — its result is the map of the per-server
record function, so its length is the number of configured servers;
servers whose Topic call errors or returns a non-string tag contribute
their offline base record (ServerStatus = 0); and a stale StatusCb call
leaves exactly that list in the cache. -/
theorem c5_one_record_per_server (servers : List ServerInstance) (topic : String → TopicOut) :
    (statusRefreshVar topic servers).length = servers.length ∧
    statusRefreshVar topic servers = servers.map (statusRecord topic) ∧
    (∀ server : ServerInstance, (baseStatus server).ServerStatus = 0) ∧
    (∀ server : ServerInstance,
        (topic server.Address).err = true ∨ (topic server.Address).dataType ≠ TopicTypeString →
        statusRecord topic server = baseStatus server) ∧
    (∀ (now : Int) (cache : CachedResponse (List ServerStatus)),
        ShouldRefreshResponse cache now = true →
        (StatusCb servers topic now cache).1.Var = servers.map (statusRecord topic)) := by
  have hmap : statusRefreshVar topic servers = servers.map (statusRecord topic) := by
    simp [statusRefreshVar, statusLoopFinal_eq]
  refine ⟨by rw [hmap]; simp, hmap, fun server => rfl, ?_, ?_⟩
  · intro server h
    simp only [statusRecord]
    rw [if_pos h]
  · intro now cache h
    simp [StatusCb, h, hmap]

/-- C5 witness: the single unreachable-server configuration yields
exactly one record, the offline base record of that server. -/
theorem c5_one_record_per_server_witness :
    statusRefreshVar topicDown [srvA] = [baseStatus srvA] ∧
    (statusRefreshVar topicDown [srvA]).length = 1 ∧
    statusRecord topicDown srvA = baseStatus srvA ∧
    (baseStatus srvA).ServerStatus = 0 := by
  have h := c5_one_record_per_server [srvA] topicDown
  have h4 := h.2.2.2.1 srvA (Or.inl rfl)
  refine ⟨?_, h.1, h4, h.2.2.1 srvA⟩
  rw [h.2.1]
  simp [h4]

/-- C7 (confirmed): when Topic succeeds with a string tag the record is
the full decode of the payload and is marked online; a key absent from
the parsed query yields 0 for numeric fields and the empty string for
string fields; and the spec's scenario payload decodes to RoundID 5,
Players 10, Map "Box" with every unspecified field zero or empty. -/
theorem c7_decode_scenario (server : ServerInstance) (topic : String → TopicOut) :
    (∀ srv : ServerInstance, (topic srv.Address).err = false →
        (topic srv.Address).dataType = TopicTypeString →
        statusRecord topic srv =
          decodeStatus (baseStatus srv) (goStringOfBytes (topic srv.Address).data) ∧
        (statusRecord topic srv).ServerStatus = 1) ∧
    (∀ (u : List (String × String)) (key : String),
        u.find? (fun p => p.1 == key) = none →
        url_to_int u key = 0 ∧ url_to_f32 u key = 0 ∧ valuesGet u key = "") ∧
    decodeStatus (baseStatus server) "round_id=5&players=10&map_name=Box" =
      { baseStatus server with ServerStatus := 1, RoundID := 5, Players := 10, Map := "Box" } := by
  refine ⟨?_, ?_, ?_⟩
  · intro srv h1 h2
    have hcond : ¬((topic srv.Address).err = true ∨
        (topic srv.Address).dataType ≠ TopicTypeString) := by
      simp [h1, h2]
    constructor
    · simp only [statusRecord]
      rw [if_neg hcond]
    · simp only [statusRecord]
      rw [if_neg hcond]
      rfl
  · intro u key h
    refine ⟨?_, ?_, ?_⟩
    · simp only [url_to_int, valuesGet, h]
      decide
    · simp only [url_to_f32, valuesGet, h]
      decide
    · simp [valuesGet, h]
  · simp only [decodeStatus, baseStatus]
    congr 1

/-- C7 witness: a server whose Topic oracle answers the scenario payload
with the string tag gets exactly the scenario's online record. -/
theorem c7_decode_scenario_witness :
    statusRecord topicBox srvA =
      { baseStatus srvA with ServerStatus := 1, RoundID := 5, Players := 10, Map := "Box" } ∧
    (statusRecord topicBox srvA).ServerStatus = 1 := by
  have h := (c7_decode_scenario srvA topicBox).1 srvA rfl rfl
  have h3 := (c7_decode_scenario srvA topicBox).2.2
  have hs : goStringOfBytes (topicBox srvA.Address).data =
      "round_id=5&players=10&map_name=Box" := by decide
  refine ⟨?_, h.2⟩
  rw [h.1, hs, h3]

/-- C8 (counterexample): a request with job "Doctor" but a wrong token
issues no database lookup at all, refuting the claim that every request
with a non-empty job parameter issues a fresh database lookup. -/
theorem c8_unauthorized_counterexample :
    valuesGet reqJobWrong.query "job" = "Doctor" ∧
    PlayerLeaderboardCb "sec" (fun _ => []) 0 lbCacheFixture reqJobWrong =
      { writes := [LbWrite.badAuth], cache := lbCacheFixture, dbCalls := [] } := by
  decide

/-- C8 (amended): a leaderboard request with a non-empty job parameter
that passes the token check bypasses the cache and issues exactly one
fresh lookup for that job; any request with a job parameter leaves the
cached entry (and so its last-access timestamp) unchanged, whether or
not it passes the check; a request without job is served from the cache
InitV1 configures with a 1-hour cooldown, looking the database up
exactly when the cache is stale. -/
theorem c8_job_cache_bypass (secret : String) (dbTop : String → List RoleTime) (now : Int)
    (cache w : CachedResponse (List RoleTime)) (r : Request) :
    (valuesGet r.query "job" ≠ "" → r.token = secret →
        (PlayerLeaderboardCb secret dbTop now cache r).dbCalls = [valuesGet r.query "job"] ∧
        (PlayerLeaderboardCb secret dbTop now cache r).cache = cache) ∧
    (valuesGet r.query "job" ≠ "" →
        (PlayerLeaderboardCb secret dbTop now cache r).cache = cache) ∧
    (valuesGet r.query "job" = "" → ShouldRefreshResponse cache now = true →
        (PlayerLeaderboardCb secret dbTop now cache r).dbCalls = ["Living"] ∧
        (PlayerLeaderboardCb secret dbTop now cache r).cache.LastAccess = now) ∧
    (valuesGet r.query "job" = "" → ShouldRefreshResponse cache now = false →
        (PlayerLeaderboardCb secret dbTop now cache r).dbCalls = [] ∧
        (PlayerLeaderboardCb secret dbTop now cache r).cache = cache) ∧
    (initV1LeaderboardCache w).Cooldown = 1 * goHour := by
  refine ⟨?_, ?_, ?_, ?_, rfl⟩
  · intro hjob htok
    have hlen := length_pos_of_ne_empty _ hjob
    have hconf : ¬Confidential secret r = false := by simp [Confidential, htok]
    simp only [PlayerLeaderboardCb]
    rw [if_pos hlen, if_neg hconf]
    exact ⟨rfl, rfl⟩
  · intro hjob
    have hlen := length_pos_of_ne_empty _ hjob
    simp only [PlayerLeaderboardCb]
    rw [if_pos hlen]
    by_cases hconf : Confidential secret r = false
    · rw [if_pos hconf]
    · rw [if_neg hconf]
  · intro hjob hstale
    have hlen : ¬0 < (valuesGet r.query "job").length := by simp [hjob]
    simp only [PlayerLeaderboardCb]
    rw [if_neg hlen, if_pos hstale]
    exact ⟨rfl, rfl⟩
  · intro hjob hfresh
    have hlen : ¬0 < (valuesGet r.query "job").length := by simp [hjob]
    have hfresh2 : ¬ShouldRefreshResponse cache now = true := by simp [hfresh]
    simp only [PlayerLeaderboardCb]
    rw [if_neg hlen, if_neg hfresh2]
    exact ⟨rfl, rfl⟩

/-- C8 witness: the authorized job request queries exactly that job and
leaves the cache unchanged; without job, a stale 1-hour cache triggers
the "Living" lookup; and InitV1's leaderboard cooldown is one hour. -/
theorem c8_job_cache_bypass_witness :
    (PlayerLeaderboardCb "sec" (fun _ => []) 0 lbCacheFixture
      { query := [("job", "Doctor")], token := "sec" }).dbCalls = ["Doctor"] ∧
    (PlayerLeaderboardCb "sec" (fun _ => []) 0 lbCacheFixture
      { query := [("job", "Doctor")], token := "sec" }).cache = lbCacheFixture ∧
    (PlayerLeaderboardCb "sec" (fun _ => []) 5000000000000 lbCacheFixture
      { query := [], token := "x" }).dbCalls = ["Living"] ∧
    (initV1LeaderboardCache lbCacheFixture).Cooldown = 1 * goHour := by
  have h := c8_job_cache_bypass "sec" (fun _ => []) 0 lbCacheFixture lbCacheFixture
    { query := [("job", "Doctor")], token := "sec" }
  have h2 := c8_job_cache_bypass "sec" (fun _ => []) 5000000000000 lbCacheFixture lbCacheFixture
    { query := [], token := "x" }
  have ha := h.1 (by decide) rfl
  exact ⟨ha.1, ha.2, (h2.2.2.1 (by decide) (by decide)).1, h.2.2.2.2⟩

/-- C9 (confirmed): a leaderboard request with a non-empty job parameter
and a token that differs from the shared secret gets only the bad-auth
envelope with no database call and no cache change; a request without a
job parameter is handled identically whatever token it carries. -/
theorem c9_leaderboard_auth (secret : String) (dbTop : String → List RoleTime) (now : Int)
    (cache : CachedResponse (List RoleTime)) (r : Request) :
    (valuesGet r.query "job" ≠ "" → r.token ≠ secret →
        PlayerLeaderboardCb secret dbTop now cache r =
          { writes := [LbWrite.badAuth], cache := cache, dbCalls := [] }) ∧
    (valuesGet r.query "job" = "" → ∀ t1 t2 : String,
        PlayerLeaderboardCb secret dbTop now cache { query := r.query, token := t1 } =
        PlayerLeaderboardCb secret dbTop now cache { query := r.query, token := t2 }) := by
  constructor
  · intro hjob htok
    have hlen := length_pos_of_ne_empty _ hjob
    have hconf : Confidential secret r = false := by
      simp [Confidential, htok]
    simp only [PlayerLeaderboardCb]
    rw [if_pos hlen, if_pos hconf]
  · intro hjob t1 t2
    have hlen : ¬0 < (valuesGet r.query "job").length := by simp [hjob]
    simp only [PlayerLeaderboardCb]
    rw [if_neg hlen, if_neg hlen]

/-- C9 witness: the wrong-token job request gets exactly the bad-auth
envelope with no lookup and an unchanged cache, and two requests without
job differing only in token get identical results. -/
theorem c9_leaderboard_auth_witness :
    PlayerLeaderboardCb "sec" (fun _ => []) 0 lbCacheFixture reqJobWrong =
      { writes := [LbWrite.badAuth], cache := lbCacheFixture, dbCalls := [] } ∧
    PlayerLeaderboardCb "sec" (fun _ => []) 0 lbCacheFixture { query := [], token := "x" } =
      PlayerLeaderboardCb "sec" (fun _ => []) 0 lbCacheFixture { query := [], token := "sec" } := by
  have h := c9_leaderboard_auth "sec" (fun _ => []) 0 lbCacheFixture reqJobWrong
  have h2 := c9_leaderboard_auth "sec" (fun _ => []) 0 lbCacheFixture
    { query := [], token := "x" }
  exact ⟨h.1 (by decide) (by decide), h2.2 rfl "x" "sec"⟩

/-- C10 witness: the correct token with an empty query produces no
envelope and no lookup. -/
theorem c10_bancheck_silent_fallthrough_witness :
    BanCheckCb "s" (fun _ => (emptyBan, false)) (fun _ => ([], false))
      { query := [], token := "s" } = ([], []) :=
  c10_bancheck_silent_fallthrough "s" (fun _ => (emptyBan, false)) (fun _ => ([], false))
    { query := [], token := "s" } rfl rfl rfl

end PsyApi
